import Mathlib

/-!
Shallow embedding of the i4w_callapi argument-transformation layer
(src/ps.rs, src/restapiv1.rs, src/client.rs) and proofs about it.

Rust `Result`/panic behaviour is modelled by `RRes`: `ok` carries the value,
`err` carries the error enum, and `panic` marks a Rust panic (an `unwrap` of
`None`, or a byte-index string slice that is not on a char boundary).
Machine integers are modelled as `Nat`/`Int` with explicit range checks,
strings as their lists of Unicode scalar values (`Char`).
-/

inductive RRes (ε α : Type) where
  | ok : α → RRes ε α
  | err : ε → RRes ε α
  | panic : RRes ε α
deriving DecidableEq

namespace Ps

/-- Models `ps::Error` (src/ps.rs lines 5-10). -/
inductive Error where
  | Lexer
  | Parser
  | ParameterBinder
deriving DecidableEq

/-- Models `ps::Token` (src/ps.rs lines 24-34). -/
inductive Token where
  | String (s : String)
  | Number (s : String)
  | Bool (b : Bool)
  | Comma
  | ArrayBegin
  | ArrayEnd
  | ArrayOpBegin
  | ArrayOpEnd
deriving DecidableEq

/-- Numeric value of a nonempty all-ASCII-digit character list, `none` otherwise.
Shared helper for the models of Rust's integer `FromStr` implementations. -/
def digitsVal? : List Char → Option Nat
  | [] => none
  | cs =>
    if cs.all (fun c => c.isDigit) then
      some (cs.foldl (fun a c => a * 10 + (c.toNat - '0'.toNat)) 0)
    else
      none

/-- Models Rust `str::parse::<i64>`: an optional `+`/`-` sign followed by one or
more ASCII digits, with the value required to fit in a signed 64-bit integer. -/
def parseI64 (s : String) : Option Int :=
  match s.data with
  | '+' :: ds => (digitsVal? ds).bind (fun n => if n ≤ 2 ^ 63 - 1 then some (n : Int) else none)
  | '-' :: ds => (digitsVal? ds).bind (fun n => if n ≤ 2 ^ 63 then some (-(n : Int)) else none)
  | ds => (digitsVal? ds).bind (fun n => if n ≤ 2 ^ 63 - 1 then some (n : Int) else none)

/-- Models Rust `str::parse::<u64>`: an optional `+` sign followed by one or
more ASCII digits fitting in an unsigned 64-bit integer; a `-` sign is
rejected (even `-0`). -/
def parseU64 (s : String) : Option Nat :=
  match s.data with
  | '+' :: ds => (digitsVal? ds).bind (fun n => if n ≤ 2 ^ 64 - 1 then some n else none)
  | '-' :: _ => none
  | ds => (digitsVal? ds).bind (fun n => if n ≤ 2 ^ 64 - 1 then some n else none)

/-- Drops one leading `+` or `-` sign, if present. -/
def stripSign : List Char → List Char
  | '+' :: r => r
  | '-' :: r => r
  | cs => cs

/-- Acceptor for the optional exponent tail of Rust's `f64` literal grammar:
either nothing, or `e`/`E` followed by an optional sign and one or more digits. -/
def f64ExpOk : List Char → Bool
  | [] => true
  | 'e' :: r => let r' := stripSign r; !r'.isEmpty && r'.all (fun c => c.isDigit)
  | 'E' :: r => let r' := stripSign r; !r'.isEmpty && r'.all (fun c => c.isDigit)
  | _ => false

/-- Acceptor for the unsigned-number production of Rust's `f64` literal
grammar: `Count '.'? Count? Exp?` or `'.' Count Exp?`. -/
def f64NumberOk (cs : List Char) : Bool :=
  let ip := cs.takeWhile (fun c => c.isDigit)
  let r1 := cs.dropWhile (fun c => c.isDigit)
  if ip.isEmpty then
    match r1 with
    | '.' :: r2 =>
      let fp := r2.takeWhile (fun c => c.isDigit)
      let r3 := r2.dropWhile (fun c => c.isDigit)
      !fp.isEmpty && f64ExpOk r3
    | _ => false
  else
    match r1 with
    | '.' :: r2 => f64ExpOk (r2.dropWhile (fun c => c.isDigit))
    | _ => f64ExpOk r1

/-- Acceptor for the case-insensitive special values of Rust's `f64` grammar. -/
def f64SpecialOk (cs : List Char) : Bool :=
  let l := cs.map Char.toLower
  l == ['i', 'n', 'f'] || l == ['i', 'n', 'f', 'i', 'n', 'i', 't', 'y'] || l == ['n', 'a', 'n']

/-- Models acceptance of Rust `str::parse::<f64>` (`is_ok()` of the result):
the documented grammar `Sign? ('inf' | 'infinity' | 'nan' | Number)`.
Every accepted string yields `Ok` (overflow rounds to infinity, still `Ok`),
so acceptance is all the classifier and the lexer ever observe. -/
def parseF64Accepts (s : String) : Bool :=
  let cs := stripSign s.data
  f64SpecialOk cs || f64NumberOk cs

/-- Models `ps::Number` (src/ps.rs lines 36-42). `PosInt` carries an unsigned
64-bit value, `NegInt` a signed one. The `Float` variant's IEEE-754 payload is
not modelled: no claim inspects the float's value, only which variant the
classifier chose, so `Float` is a bare constructor here. -/
inductive Number where
  | PosInt (n : Nat)
  | NegInt (n : Int)
  | Float
deriving DecidableEq

/-- Models `Number::parse` (src/ps.rs lines 44-61): a `-`-prefixed lexeme is
attempted as a signed 64-bit integer, otherwise an unsigned one is attempted;
on integer failure (or an empty lexeme) the IEEE-754 double parse is the
fallback, and `none` is returned only if that also fails. The fallthrough to
the float stage is written out in each branch. -/
def Number.parse (number : String) : Option Number :=
  match number.data.head? with
  | some firstChar =>
    if firstChar = '-' then
      match parseI64 number with
      | some signed => some (.NegInt signed)
      | none => if parseF64Accepts number then some .Float else none
    else
      match parseU64 number with
      | some unsigned => some (.PosInt unsigned)
      | none => if parseF64Accepts number then some .Float else none
  | none => if parseF64Accepts number then some .Float else none

/-- Models `ps::CliArgument` (src/ps.rs lines 63-70). -/
inductive CliArgument where
  | Array (elems : List CliArgument)
  | Bool (b : Bool)
  | Number (n : Number)
  | String (s : String)

/-- Models `ps::LexerState` (src/ps.rs lines 79-86). -/
inductive LexerState where
  | Control
  | SingleQuote
  | DoubleQuote
  | MaybeArrayOp
  | ParanthesesCmd
deriving DecidableEq

/-- Models the `ps::Lexer` struct (src/ps.rs lines 88-94) minus its `input`
field, which is threaded through the scan functions explicitly. -/
structure LexerSt where
  tokens : List Token
  state : LexerState
  escaping : Bool
  buf : String

/-- The backtick character, PowerShell's escape character. -/
def backtickChar : Char := Char.ofNat 96

/-- Models `Lexer::is_number` (src/ps.rs lines 224-226): the accumulator
parses as an `f64`. -/
def isNumberBuf (buf : String) : Bool :=
  parseF64Accepts buf

/-- Models `Lexer::is_bool` (src/ps.rs lines 228-236). -/
def isBoolBuf (buf : String) : Option Bool :=
  if buf = "$True" then some true
  else if buf = "$False" then some false
  else none

/-- Models `Lexer::store_buf_as_token` (src/ps.rs lines 238-251): an empty
accumulator is not flushed; otherwise it becomes a `Number`, `Bool` or
`String` token (in that precedence order) and is cleared (`mem::take`). -/
def storeBufAsToken (lx : LexerSt) : LexerSt :=
  if lx.buf.isEmpty then lx
  else if isNumberBuf lx.buf then
    { lx with tokens := lx.tokens ++ [.Number lx.buf], buf := "" }
  else
    match isBoolBuf lx.buf with
    | some b => { lx with tokens := lx.tokens ++ [.Bool b], buf := "" }
    | none => { lx with tokens := lx.tokens ++ [.String lx.buf], buf := "" }

/-- Appends one token to the lexer's token vector (`self.tokens.push`). -/
def pushToken (lx : LexerSt) (t : Token) : LexerSt :=
  { lx with tokens := lx.tokens ++ [t] }

/-- The per-character dispatch of `Lexer::scan_control` (src/ps.rs lines
129-154), the `else if` chain that runs when the handler is not in escaping
mode: quotes switch state, whitespace is discarded, structural characters
emit tokens (`[` without a flush, the others with one), backtick arms the
escape flag, `(` and `@` enter their dedicated states, and anything else is
accumulated. -/
def scanControlChar (lx : LexerSt) (c : Char) (rest : List Char) :
    RRes Error (LexerSt × List Char) :=
  if c = '"' then .ok ({ lx with state := .DoubleQuote }, rest)
  else if c = '\'' then .ok ({ lx with state := .SingleQuote }, rest)
  else if c = ' ' ∨ c = '\t' ∨ c = '\r' then .ok (lx, rest)
  else if c = '[' then .ok ({ lx with tokens := lx.tokens ++ [.ArrayBegin] }, rest)
  else if c = ']' then .ok (pushToken (storeBufAsToken lx) .ArrayEnd, rest)
  else if c = '(' then .ok ({ lx with buf := lx.buf.push c, state := .ParanthesesCmd }, rest)
  else if c = ')' then .ok (pushToken (storeBufAsToken lx) .ArrayOpEnd, rest)
  else if c = backtickChar then .ok ({ lx with escaping := true }, rest)
  else if c = ',' then .ok (pushToken (storeBufAsToken lx) .Comma, rest)
  else if c = '@' then .ok ({ lx with state := .MaybeArrayOp }, rest)
  else .ok ({ lx with buf := lx.buf.push c }, rest)

/-- Models `Lexer::scan_control` (src/ps.rs lines 123-157). With input left,
the handler peeks one char and then `eat(1)` slices one byte off the input;
when the peeked char is multi-byte that byte index is not a char boundary and
Rust panics, modelled by `.panic` before any branching. In escaping mode the
character is taken literally; otherwise `scanControlChar` dispatches on it.
On empty input the handler returns `Ok(())` without consuming anything. -/
def scanControl (lx : LexerSt) : List Char → RRes Error (LexerSt × List Char)
  | [] => .ok (lx, [])
  | c :: rest =>
    if c.utf8Size ≠ 1 then .panic
    else if lx.escaping then .ok ({ lx with buf := lx.buf.push c, escaping := false }, rest)
    else scanControlChar lx c rest

/-- Models `Lexer::scan_singlequote` (src/ps.rs lines 159-172): no escape
processing; a closing quote flushes and returns to Control; empty input is a
`LexerError`. -/
def scanSinglequote (lx : LexerSt) : List Char → RRes Error (LexerSt × List Char)
  | [] => .err .Lexer
  | c :: rest =>
    if c.utf8Size ≠ 1 then .panic
    else if c = '\'' then .ok ({ storeBufAsToken lx with state := .Control }, rest)
    else .ok ({ lx with buf := lx.buf.push c }, rest)

/-- Models `Lexer::scan_doublequote` (src/ps.rs lines 174-192): backtick
escapes the next character; a closing quote flushes and returns to Control. -/
def scanDoublequote (lx : LexerSt) : List Char → RRes Error (LexerSt × List Char)
  | [] => .err .Lexer
  | c :: rest =>
    if c.utf8Size ≠ 1 then .panic
    else if lx.escaping then .ok ({ lx with buf := lx.buf.push c, escaping := false }, rest)
    else if c = backtickChar then .ok ({ lx with escaping := true }, rest)
    else if c = '"' then .ok ({ storeBufAsToken lx with state := .Control }, rest)
    else .ok ({ lx with buf := lx.buf.push c }, rest)

/-- Models `Lexer::scan_parantheses_cmd` (src/ps.rs lines 194-206): every
character, the closing `)` included, is pushed to the accumulator; the first
`)` flushes and returns to Control. -/
def scanParanthesesCmd (lx : LexerSt) : List Char → RRes Error (LexerSt × List Char)
  | [] => .err .Lexer
  | c :: rest =>
    if c.utf8Size ≠ 1 then .panic
    else
      let lx' := { lx with buf := lx.buf.push c }
      if c = ')' then .ok ({ storeBufAsToken lx' with state := .Control }, rest)
      else .ok (lx', rest)

/-- Models `Lexer::scan_maybearrayop` (src/ps.rs lines 208-222): `(` makes the
pending `@` an `ArrayOpBegin`; anything else pushes `@` and the character into
the accumulator; either way the state returns to Control. -/
def scanMaybearrayop (lx : LexerSt) : List Char → RRes Error (LexerSt × List Char)
  | [] => .err .Lexer
  | c :: rest =>
    if c.utf8Size ≠ 1 then .panic
    else if c = '(' then
      .ok ({ lx with tokens := lx.tokens ++ [.ArrayOpBegin], state := .Control }, rest)
    else
      .ok ({ lx with buf := (lx.buf.push '@').push c, state := .Control }, rest)

/-- Dispatch on the lexer state, as in the `match` of `Lexer::lex`
(src/ps.rs lines 109-115). -/
def scan (lx : LexerSt) (input : List Char) : RRes Error (LexerSt × List Char) :=
  match lx.state with
  | .Control => scanControl lx input
  | .SingleQuote => scanSinglequote lx input
  | .DoubleQuote => scanDoublequote lx input
  | .MaybeArrayOp => scanMaybearrayop lx input
  | .ParanthesesCmd => scanParanthesesCmd lx input

/-- Models the `while !self.input.is_empty()` loop of `Lexer::lex`
(src/ps.rs lines 107-121). Every scan handler, applied to the nonempty input
`c :: cs`, either fails or returns exactly `cs` as the remaining input
(lemma `scan_rest` below), so the loop recurses structurally on `cs`. -/
def lexLoop : LexerSt → List Char → RRes Error LexerSt
  | lx, [] => .ok lx
  | lx, c :: cs =>
    match scan lx (c :: cs) with
    | .ok (lx', _) => lexLoop lx' cs
    | .err e => .err e
    | .panic => .panic

/-- Models `Lexer::from_str` (src/ps.rs lines 97-105). -/
def initLexer : LexerSt :=
  { tokens := [], state := .Control, escaping := false, buf := "" }

/-- Models `Lexer::lex` (src/ps.rs lines 107-121): run the state machine over
the whole input, then flush the accumulator one final time. -/
def lex (input : String) : RRes Error (List Token) :=
  match lexLoop initLexer input.data with
  | .ok lx => .ok (storeBufAsToken lx).tokens
  | .err e => .err e
  | .panic => .panic

/-- Models `Parser::parse_newtype_token` (src/ps.rs lines 384-392): consume
one token equal to the expected one, else fail with the input restored. In
this value-passing embedding an `err` result carries no remaining input;
every parser function restores its input slice on `Err` exactly as the Rust
code does, so callers continue from the input they passed in. -/
def parseNewtypeToken (token : Token) (input : List Token) : RRes Error (Token × List Token) :=
  match input with
  | t :: rest => if t = token then .ok (token, rest) else .err .Parser
  | [] => .err .Parser

/-- Models `Parser::parse_skalar` (src/ps.rs lines 365-382). A `Number` token
whose lexeme the classifier rejects hits `Number::parse(..).unwrap()` and
panics. -/
def parseSkalar (input : List Token) : RRes Error (CliArgument × List Token) :=
  match input with
  | [] => .err .Parser
  | t :: rest =>
    match t with
    | .String s => .ok (.String s, rest)
    | .Number s =>
      (match Number.parse s with
       | some n => .ok (.Number n, rest)
       | none => .panic)
    | .Bool b => .ok (.Bool b, rest)
    | _ => .err .Parser

/-!
The mutually recursive productions `parse_array`, `parse_sequence` (with its
internal `loop`) and `parse_element` are embedded through a `fuel` counter so
the recursion is structural (and hence computable by the kernel). The bodies
of `parse_element` and `parse_sequence` are written once, parameterized over
the production they call back into; `parseArray` ties the knot, recursing on
fuel. Fuel is decremented exactly where the Rust recursion has just consumed
one token (the `[` or `@(` opening an array, or the comma of the sequence
loop), so along any execution path at most `input.length` decrements can
happen; the entry point `parseArgument` passes `input.length + 1`, which
therefore never reaches the fuel-0 branches.
-/

/-- Body of `Parser::parse_element` (src/ps.rs lines 355-363), parameterized
over the `parse_array` production it calls: a scalar, else an array. -/
def parseElementWith (arrayFn : List Token → RRes Error (CliArgument × List Token))
    (input : List Token) : RRes Error (CliArgument × List Token) :=
  match parseSkalar input with
  | .ok r => .ok r
  | .panic => .panic
  | .err _ =>
    match arrayFn input with
    | .ok r => .ok r
    | .err _ => .err .Parser
    | .panic => .panic

/-- Body of the `loop` inside `Parser::parse_sequence` (src/ps.rs lines
336-345), parameterized over `parse_element`: if no comma follows, stop;
after a comma, a failing element also stops the loop (the trailing comma
stays consumed), otherwise the element is appended and the loop goes on. -/
def parseSequenceRestWith (elementFn : List Token → RRes Error (CliArgument × List Token)) :
    Nat → List CliArgument → List Token → RRes Error (List CliArgument × List Token)
  | fuel, acc, input =>
    match parseNewtypeToken .Comma input with
    | .ok (_, r1) =>
      (match elementFn r1 with
       | .ok (el, r2) =>
         (match fuel with
          | 0 => .err .Parser
          | f + 1 => parseSequenceRestWith elementFn f (acc ++ [el]) r2)
       | .err _ => .ok (acc, r1)
       | .panic => .panic)
    | _ => .ok (acc, input)

/-- Body of `Parser::parse_sequence` (src/ps.rs lines 332-351), parameterized
over `parse_element`: one element, then the comma-separated continuation
loop. -/
def parseSequenceWith (elementFn : List Token → RRes Error (CliArgument × List Token))
    (fuel : Nat) (input : List Token) : RRes Error (List CliArgument × List Token) :=
  match elementFn input with
  | .ok (el, r1) => parseSequenceRestWith elementFn fuel [el] r1
  | .err _ => .err .Parser
  | .panic => .panic

/-- Models `Parser::parse_array` (src/ps.rs lines 277-301): `[ sequence? ]`
or `@( sequence? )`; on failure of the inner sequence the array is empty; a
missing closing token fails the whole production with the input restored.
The inner sequence runs with one unit of fuel less, its element production
being `parse_element` over this very recursion. -/
def parseArray : Nat → List Token → RRes Error (CliArgument × List Token)
  | 0, _ => .err .Parser
  | f + 1, input =>
    match parseNewtypeToken .ArrayBegin input with
    | .ok (_, r1) =>
      (match parseSequenceWith (parseElementWith (parseArray f)) f r1 with
       | .ok (seq, r2) =>
         (match parseNewtypeToken .ArrayEnd r2 with
          | .ok (_, r3) => .ok (.Array seq, r3)
          | _ => .err .Parser)
       | .err _ =>
         (match parseNewtypeToken .ArrayEnd r1 with
          | .ok (_, r3) => .ok (.Array [], r3)
          | _ => .err .Parser)
       | .panic => .panic)
    | _ =>
      match parseNewtypeToken .ArrayOpBegin input with
      | .ok (_, r1) =>
        (match parseSequenceWith (parseElementWith (parseArray f)) f r1 with
         | .ok (seq, r2) =>
           (match parseNewtypeToken .ArrayOpEnd r2 with
            | .ok (_, r3) => .ok (.Array seq, r3)
            | _ => .err .Parser)
         | .err _ =>
           (match parseNewtypeToken .ArrayOpEnd r1 with
            | .ok (_, r3) => .ok (.Array [], r3)
            | _ => .err .Parser)
         | .panic => .panic)
      | _ => .err .Parser

/-- Models `Parser::parse_element` at a given fuel level. -/
def parseElement (fuel : Nat) : List Token → RRes Error (CliArgument × List Token) :=
  parseElementWith (parseArray fuel)

/-- Models `Parser::parse_sequence` at a given fuel level. -/
def parseSequence (fuel : Nat) : List Token → RRes Error (List CliArgument × List Token) :=
  parseSequenceWith (parseElement fuel) fuel

/-- Models `Parser::parse_comma_op` (src/ps.rs lines 304-313): one element
followed by a mandatory comma, yielding a one-element vector. -/
def parseCommaOp (fuel : Nat) (input : List Token) : RRes Error (List CliArgument × List Token) :=
  match parseElement fuel input with
  | .ok (el, r1) =>
    (match parseNewtypeToken .Comma r1 with
     | .ok (_, r2) => .ok ([el], r2)
     | _ => .err .Parser)
  | .err _ => .err .Parser
  | .panic => .panic

/-- Models `Parser::parse_sequence_by_comma_op` (src/ps.rs lines 317-328):
the mandatory `element ,` prefix, then a greedy optional trailing sequence;
with no trailing sequence the result is the one-element array. -/
def parseSequenceByCommaOp (fuel : Nat) (input : List Token) :
    RRes Error (CliArgument × List Token) :=
  match parseCommaOp fuel input with
  | .ok (seq1, r1) =>
    (match parseSequence fuel r1 with
     | .ok (seq2, r2) => .ok (.Array (seq1 ++ seq2), r2)
     | .err _ => .ok (.Array seq1, r1)
     | .panic => .panic)
  | .err _ => .err .Parser
  | .panic => .panic

/-- Models `Parser::parse_argument` (src/ps.rs lines 266-271): try
`sequence_by_comma_op`, then `array`, then `skalar`, each alternative seeing
the original input slice. -/
def parseArgument (input : List Token) : RRes Error (CliArgument × List Token) :=
  match parseSequenceByCommaOp (input.length + 1) input with
  | .ok r => .ok r
  | .panic => .panic
  | .err _ =>
    match parseArray (input.length + 1) input with
    | .ok r => .ok r
    | .panic => .panic
    | .err _ =>
      match parseSkalar input with
      | .ok r => .ok r
      | .panic => .panic
      | .err _ => .err .Parser

/-- Models `ps::from_str` (src/ps.rs lines 72-77): lex, then parse one
argument from the token stream; tokens left over after the argument are
dropped. -/
def fromStr (input : String) : RRes Error CliArgument :=
  match lex input with
  | .ok tokens =>
    (match parseArgument tokens with
     | .ok (v, _) => .ok v
     | .err e => .err e
     | .panic => .panic)
  | .err e => .err e
  | .panic => .panic

/-- Models `ps::ParameterBinderError` (src/ps.rs lines 395-399). -/
structure ParameterBinderError where
  failed_arg : Option String
  reason : Error
deriving DecidableEq

/-- Models Rust's `char::is_alphabetic` (the Unicode `Alphabetic` property).
Exact on every code point below U+02B0: the ASCII letters; the Latin-1
letters U+00AA, U+00B5, U+00BA, U+00C0 to U+00FF except the multiplication
and division signs U+00D7 and U+00F7; and the Latin Extended-A, Latin
Extended-B and IPA Extensions blocks U+0100 to U+02AF, all of whose code
points are letters. Code points from U+02B0 upward do not occur anywhere in
this development and are conservatively mapped to `false`. -/
def rustCharIsAlphabetic (c : Char) : Bool :=
  (('A' ≤ c && c ≤ 'Z') || ('a' ≤ c && c ≤ 'z'))
    || (c.val == 0xAA || c.val == 0xB5 || c.val == 0xBA)
    || (0xC0 ≤ c.val && c.val ≤ 0xFF && c.val != 0xD7 && c.val != 0xF7)
    || (0x100 ≤ c.val && c.val ≤ 0x2AF)

/-- Models `ParameterBinderToken::is_parameter_name` (src/ps.rs lines
430-437): the token starts with `-` and its second char (`chars().nth(1)`)
is alphabetic (`char::is_alphabetic`, defaulting to `false` when absent). -/
def isParameterName (s : String) : Bool :=
  match s.data with
  | c :: rest => c == '-' && ((rest.head?.map rustCharIsAlphabetic).getD false)
  | [] => false

/-- Models `ParameterBinderToken::as_parameter_name` (src/ps.rs lines
439-441): `self.as_ref()[1..]`. Its callers invoke it only on tokens
satisfying `is_parameter_name`, whose first char `-` is a single byte, so the
byte slice at index 1 is the string minus its first character. -/
def asParameterName (s : String) : String :=
  s.drop 1

/-- Models the `ps::ParameterBinder` struct (src/ps.rs lines 444-450). -/
structure ParameterBinder where
  input_args : List String
  position : Nat
deriving DecidableEq

/-- Models `ParameterBinder::new` (src/ps.rs lines 456-461). -/
def ParameterBinder.new (args : List String) : ParameterBinder :=
  { input_args := args, position := 0 }

/-- Models `ParameterBinder::peek` (src/ps.rs lines 501-507). -/
def peek (b : ParameterBinder) (offset : Nat) : Option String :=
  if b.position + offset < b.input_args.length then
    b.input_args.get? (b.position + offset)
  else
    none

/-- Models `ParameterBinder::has_next` (src/ps.rs lines 497-499). -/
def hasNext (b : ParameterBinder) : Bool :=
  b.position < b.input_args.length

/-- Models `ParameterBinder::next_parameter_pair` (src/ps.rs lines 463-495),
returning the result together with the updated binder. The cursor moves (by
1 for an implicit switch, by 2 for a name-value pair) only on the `Ok` path:
the `?` on the failing `from_str` propagates the error before
`self.position += shift_position` is reached, and the not-a-parameter-name
arm never touches the position either. -/
def nextParameterPair (b : ParameterBinder) :
    RRes ParameterBinderError (String × CliArgument) × ParameterBinder :=
  match peek b 0 with
  | none => (.err { failed_arg := none, reason := .ParameterBinder }, b)
  | some currentArg =>
    if isParameterName currentArg then
      let parameterName := asParameterName currentArg
      match peek b 1 with
      | some nextArg =>
        if isParameterName nextArg then
          (.ok (parameterName, .Bool true), { b with position := b.position + 1 })
        else
          (match fromStr nextArg with
           | .ok v => (.ok (parameterName, v), { b with position := b.position + 2 })
           | .err e => (.err { failed_arg := some currentArg, reason := e }, b)
           | .panic => (.panic, b))
      | none => (.ok (parameterName, .Bool true), { b with position := b.position + 1 })
    else
      (.err { failed_arg := some currentArg, reason := .ParameterBinder }, b)

/-- Models `Iterator::next` for `ParameterBinder` (src/ps.rs lines 510-523):
`None` once the cursor has reached the end, otherwise one (fallible)
parameter pair. -/
def next (b : ParameterBinder) :
    Option (RRes ParameterBinderError (String × CliArgument)) × ParameterBinder :=
  if hasNext b then
    let (r, b') := nextParameterPair b
    (some r, b')
  else
    (none, b)

end Ps

namespace Restapiv1

/-- Models `restapiv1::Argument` (src/restapiv1.rs lines 12-17). -/
inductive Argument where
  | RealArgument (s : String)
  | DummyArgument (b : Bool)
deriving DecidableEq

/-- Models `IndexMap::insert`: an existing key keeps its position and gets
the new value (last write wins), a new key is appended at the end, preserving
insertion order. -/
def indexMapInsert {α : Type} (m : List (String × α)) (k : String) (v : α) :
    List (String × α) :=
  if m.any (fun p => p.1 == k) then
    m.map (fun p => if p.1 == k then (k, v) else p)
  else
    m ++ [(k, v)]

/-- Models the `for params in param_binder` loop of
`CommandArguments::try_from` (src/restapiv1.rs lines 47-55): each pair is
inserted into the order-preserving map, the first error (or panic) is
propagated. Each successful step advances the binder position by at least 1,
so `args.length + 1` units of fuel are never exhausted. -/
def tryFromLoop : Nat → Ps.ParameterBinder → List (String × Ps.CliArgument) →
    RRes Ps.ParameterBinderError (List (String × Ps.CliArgument))
  | 0, _, acc => .ok acc
  | fuel + 1, b, acc =>
    match Ps.next b with
    | (none, _) => .ok acc
    | (some r, b') =>
      match r with
      | .ok (paramName, paramValue) => tryFromLoop fuel b' (indexMapInsert acc paramName paramValue)
      | .err e => .err e
      | .panic => .panic

/-- Models `CommandArguments::try_from` (src/restapiv1.rs lines 44-56); the
`CommandArguments` newtype around `IndexMap<String, CliArgument>` is the
association list itself. -/
def tryFrom (args : List String) :
    RRes Ps.ParameterBinderError (List (String × Ps.CliArgument)) :=
  tryFromLoop (args.length + 1) (Ps.ParameterBinder.new args) []

end Restapiv1

namespace Client

/-- Models `str::starts_with('-')`: the first character is a dash. -/
def startsWithDash (s : String) : Bool :=
  s.data.head? == some '-'

/-- Models `client::build_command_map` (src/client.rs lines 11-33): walk the
indices; a token starting with `-` becomes a key (with every `-` removed by
`replace("-", "")`); the value is the following token verbatim
(`RealArgument`) unless it is absent or itself starts with `-`, in which case
the dummy `true` is inserted. Other tokens are skipped. The declared Rust
return type is `restapiv1::CommandArguments` (a map of `ps::CliArgument`),
but the map built here holds `restapiv1::Argument` values; the embedding
models the map that the function body actually builds. -/
def buildCommandMap (args : List String) : List (String × Restapiv1.Argument) :=
  (List.range args.length).foldl
    (fun commandMap idx =>
      match args.get? idx with
      | some cur =>
        if startsWithDash cur then
          let argValue :=
            match args.get? (idx + 1) with
            | some nextValue =>
              if startsWithDash nextValue then
                Restapiv1.Argument.DummyArgument true
              else
                Restapiv1.Argument.RealArgument nextValue
            | none => Restapiv1.Argument.DummyArgument true
          Restapiv1.indexMapInsert commandMap (⟨cur.data.filter (fun c => c ≠ '-')⟩ : String) argValue
        else
          commandMap
      | none => commandMap)
    []

end Client

/-!
Statement-side definitions. `isAsciiAlphabetic` and `isParameterNameSpec`
follow the specification's words, for comparison against the source-derived
`Ps.isParameterName`. The remaining predicates package the invariants the
safety theorems are about.
-/

/-- The specification's notion of an ASCII alphabetic letter. -/
def isAsciiAlphabetic (c : Char) : Bool :=
  ('A' ≤ c && c ≤ 'Z') || ('a' ≤ c && c ≤ 'z')

/-- Modelled from the spec's words (for the refinement comparison of claim
C2): a token qualifies as a parameter name iff it begins with `-` and its
second character is ASCII alphabetic. -/
def isParameterNameSpec (s : String) : Bool :=
  match s.data with
  | c :: rest => c == '-' && ((rest.head?.map isAsciiAlphabetic).getD false)
  | [] => false

/-- The scalar value that `parse_skalar` assigns to a scalar token: strings
and booleans verbatim, a `Number` token through the numeric classifier, and
`none` on the structural tokens (and on a `Number` token the classifier
rejects, where `parse_skalar` would panic instead of producing a value). -/
def skalarValue : Ps.Token → Option Ps.CliArgument
  | .String s => some (.String s)
  | .Number s => (Ps.Number.parse s).map .Number
  | .Bool b => some (.Bool b)
  | _ => none

/-- Every `Number` token in the list carries a lexeme the lexer's `is_number`
check accepted (it parses as an `f64`). -/
def NumTokensOk (ts : List Ps.Token) : Prop :=
  ∀ s, Ps.Token.Number s ∈ ts → Ps.parseF64Accepts s = true

/-- Every `Number` token in the list carries a lexeme the numeric classifier
accepts, so `parse_skalar`'s `unwrap` cannot panic on it. -/
def NoBadNum (ts : List Ps.Token) : Prop :=
  ∀ s, Ps.Token.Number s ∈ ts → Ps.Number.parse s ≠ none

/-- A parser production neither panics on a well-formed token list nor
returns surplus input: its leftover is a sub-list (membership-wise) of what
it was given. -/
def ParserFnOk {β : Type} (fn : List Ps.Token → RRes Ps.Error (β × List Ps.Token)) : Prop :=
  ∀ ts, NoBadNum ts → fn ts ≠ .panic ∧ ∀ v r, fn ts = .ok (v, r) → r ⊆ ts

/-- C1: for the forwarded argument list `["-Warning", "0,1", "-switch"]`, the
map that `checker_commnad` actually POSTs — built by `build_command_map` —
binds `Warning` to the raw string `"0,1"` and `switch` to the dummy `true`
(wire body `{"Warning":"0,1","switch":true}`), whereas the lex-and-parse path
`CommandArguments::try_from` named by `build_command_map`'s declared return
type produces the claimed body `{"Warning":[0,1],"switch":true}` with the
top-level comma parsed into an array of numbers and insertion order kept. -/
theorem c1_request_body_evaluation :
    Client.buildCommandMap ["-Warning", "0,1", "-switch"]
        = [("Warning", .RealArgument "0,1"), ("switch", .DummyArgument true)]
      ∧ Restapiv1.tryFrom ["-Warning", "0,1", "-switch"]
        = .ok [("Warning", .Array [.Number (.PosInt 0), .Number (.PosInt 1)]),
               ("switch", .Bool true)] :=
  ⟨rfl, rfl⟩

/-- C10: `from_str` does not require the whole token stream to be consumed:
`"'a''b'"` lexes to two `String` tokens, `parse_argument` consumes only the
first one leaving `String("b")` unread, and `from_str` still returns `Ok`
with `String("a")`, silently dropping the leftover token. -/
theorem c10_from_str_discards_leftover :
    Ps.lex "'a''b'" = .ok [.String "a", .String "b"]
      ∧ Ps.parseArgument [.String "a", .String "b"] = .ok (.String "a", [.String "b"])
      ∧ Ps.fromStr "'a''b'" = .ok (.String "a") :=
  ⟨rfl, rfl, rfl⟩

/-- C2, counterexample: `"-ä"` is accepted by the code's
`is_parameter_name` — Rust's `char::is_alphabetic` is Unicode-wide — although
its second character is not an ASCII alphabetic letter, so the claimed
if-and-only-if with "second character is ASCII alphabetic" fails. -/
theorem c2_counterexample :
    Ps.isParameterName "-ä" = true ∧ isParameterNameSpec "-ä" = false :=
  ⟨rfl, rfl⟩

/-- C5, counterexample: in the Control state `[` is emitted without flushing
the accumulator first, so `"abc[]"` lexes to
`[ArrayBegin, String("abc"), ArrayEnd]` — the buffered `abc` is only flushed
by the later `]` — and not to the claimed
`[String("abc"), ArrayBegin, ArrayEnd]`. -/
theorem c5_counterexample :
    Ps.lex "abc[]" = .ok [.ArrayBegin, .String "abc", .ArrayEnd]
      ∧ Ps.lex "abc[]" ≠ .ok [.String "abc", .ArrayBegin, .ArrayEnd] :=
  ⟨rfl, by decide⟩

/-- C8, counterexample: on the input `["foo", "-Bar", "1"]` the first
`next()` call fails on `foo` and returns the binder with its position still
at 0, so — `next` being a function of the binder state — every subsequent
call repeats the same error and the valid later pair `("Bar", 1)` is never
yielded: one failed pair does poison all subsequent pairs. -/
theorem c8_counterexample :
    Ps.next { input_args := ["foo", "-Bar", "1"], position := 0 }
      = (some (.err { failed_arg := some "foo", reason := .ParameterBinder }),
         { input_args := ["foo", "-Bar", "1"], position := 0 }) :=
  rfl

/-- C9, counterexample: the lexer is not total on all strings: each scan
handler slices one byte off the input after peeking one char, so the two-byte
character `ä` makes `eat(1)` slice inside a UTF-8 sequence and Rust panics
instead of returning `Ok`. -/
theorem c9_counterexample :
    Ps.lex "ä" = .panic :=
  rfl

/-- C2, amended: `is_parameter_name(s)` holds iff `s` begins with `-` and its
second character is alphabetic in the Unicode sense of Rust's
`char::is_alphabetic` (which coincides with ASCII alphabetic on ASCII
characters); in particular `-Warning` is a parameter name while `-10`,
`-10:20`, `-`, and `-$True` are not. -/
theorem c2_is_parameter_name :
    (∀ s : String, Ps.isParameterName s = true ↔
        (s.data.head? = some '-'
          ∧ ∃ c, s.data.get? 1 = some c ∧ Ps.rustCharIsAlphabetic c = true))
      ∧ Ps.isParameterName "-Warning" = true
      ∧ Ps.isParameterName "-10" = false
      ∧ Ps.isParameterName "-10:20" = false
      ∧ Ps.isParameterName "-" = false
      ∧ Ps.isParameterName "-$True" = false := by
  refine ⟨?_, rfl, rfl, rfl, rfl, rfl⟩
  intro s
  cases h : s.data with
  | nil => simp [Ps.isParameterName, h]
  | cons c rest =>
    cases rest with
    | nil => simp [Ps.isParameterName, h]
    | cons c2 r2 => simp [Ps.isParameterName, h, and_comm]

theorem c2_is_parameter_name_witness :
    Ps.isParameterName "-Xy" = true :=
  (c2_is_parameter_name.1 "-Xy").mpr ⟨rfl, 'X', rfl, rfl⟩

/-- C3: the numeric classifier tries a signed 64-bit parse for `-`-prefixed
lexemes (yielding `NegInt`), an unsigned 64-bit parse otherwise (yielding
`PosInt`); when the applicable integer stage rejects, the result is `Float`
exactly when the lexeme parses as an IEEE-754 double and `None` otherwise.
In particular `-` classifies to `None`, `-0` to `NegInt(0)`, `0` to
`PosInt(0)`, `+1.0` to `Float`, and the 64-bit-overflowing lexeme
`18446744073709551616` to `Float`. -/
theorem c3_numeric_classifier :
    (∀ s n, s.data.head? = some '-' → Ps.parseI64 s = some n →
        Ps.Number.parse s = some (.NegInt n))
      ∧ (∀ s c n, s.data.head? = some c → c ≠ '-' → Ps.parseU64 s = some n →
          Ps.Number.parse s = some (.PosInt n))
      ∧ (∀ s c, s.data.head? = some c →
          (c = '-' → Ps.parseI64 s = none) → (c ≠ '-' → Ps.parseU64 s = none) →
          Ps.Number.parse s = (if Ps.parseF64Accepts s then some .Float else none))
      ∧ Ps.Number.parse "-" = none
      ∧ Ps.Number.parse "-0" = some (.NegInt 0)
      ∧ Ps.Number.parse "0" = some (.PosInt 0)
      ∧ Ps.Number.parse "+1.0" = some .Float
      ∧ Ps.Number.parse "18446744073709551616" = some .Float := by
  refine ⟨?_, ?_, ?_, rfl, rfl, rfl, rfl, rfl⟩
  · intro s n h1 h2
    simp [Ps.Number.parse, h1, h2]
  · intro s c n h1 hc h2
    simp [Ps.Number.parse, h1, h2, hc]
  · intro s c h1 hI hU
    by_cases hc : c = '-'
    · subst hc
      simp [Ps.Number.parse, h1, hI rfl]
    · simp [Ps.Number.parse, h1, hc, hU hc]

theorem c3_numeric_classifier_witness :
    Ps.Number.parse "-7" = some (.NegInt (-7)) :=
  c3_numeric_classifier.1 "-7" (-7) rfl rfl

/-- C5, amended: in the Control state (not escaping) the character `[`
appends `ArrayBegin` to the token stream without flushing the accumulator,
which stays as it was; consequently `"abc[]"` produces
`[ArrayBegin, String("abc"), ArrayEnd]`, the buffered word being flushed only
by the later `]`. -/
theorem c5_array_begin_no_flush :
    (∀ (toks : List Ps.Token) (st : Ps.LexerState) (buf : String) (rest : List Char),
        Ps.scanControl { tokens := toks, state := st, escaping := false, buf := buf }
            ('[' :: rest)
          = .ok ({ tokens := toks ++ [.ArrayBegin], state := st, escaping := false, buf := buf },
                 rest))
      ∧ Ps.lex "abc[]" = .ok [.ArrayBegin, .String "abc", .ArrayEnd] := by
  refine ⟨?_, rfl⟩
  intro toks st buf rest
  rfl

/-- C4: at any binder state whose current token is a parameter name, the
binder yields the stripped name bound to `Bool(true)` and a cursor advanced
by 1 when no next token exists or the next token is itself a parameter name;
otherwise it yields the name bound to `from_str(next)` with the cursor
advanced by 2, and a lex/parse failure of `next` produces a
`ParameterBinderError` whose `failed_arg` is the current flag token. -/
theorem c4_next_parameter_pair :
    ∀ (b : Ps.ParameterBinder) (cur : String),
      Ps.peek b 0 = some cur → Ps.isParameterName cur = true →
      ((Ps.peek b 1 = none →
          Ps.nextParameterPair b
            = (.ok (Ps.asParameterName cur, .Bool true),
               { b with position := b.position + 1 }))
        ∧ (∀ nxt, Ps.peek b 1 = some nxt → Ps.isParameterName nxt = true →
            Ps.nextParameterPair b
              = (.ok (Ps.asParameterName cur, .Bool true),
                 { b with position := b.position + 1 }))
        ∧ (∀ nxt v, Ps.peek b 1 = some nxt → Ps.isParameterName nxt = false →
            Ps.fromStr nxt = .ok v →
            Ps.nextParameterPair b
              = (.ok (Ps.asParameterName cur, v), { b with position := b.position + 2 }))
        ∧ (∀ nxt e, Ps.peek b 1 = some nxt → Ps.isParameterName nxt = false →
            Ps.fromStr nxt = .err e →
            Ps.nextParameterPair b
              = (.err { failed_arg := some cur, reason := e }, b))) := by
  intro b cur h0 hcur
  refine ⟨?_, ?_, ?_, ?_⟩
  · intro h1
    simp [Ps.nextParameterPair, h0, hcur, h1]
  · intro nxt h1 hn
    simp [Ps.nextParameterPair, h0, hcur, h1, hn]
  · intro nxt v h1 hn hf
    simp [Ps.nextParameterPair, h0, hcur, h1, hn, hf]
  · intro nxt e h1 hn hf
    simp [Ps.nextParameterPair, h0, hcur, h1, hn, hf]

theorem c4_next_parameter_pair_witness :
    Ps.nextParameterPair { input_args := ["-a", "-b"], position := 0 }
      = (.ok ("a", .Bool true), { input_args := ["-a", "-b"], position := 1 }) :=
  (c4_next_parameter_pair { input_args := ["-a", "-b"], position := 0 } "-a" rfl rfl).2.1
    "-b" rfl rfl

/-- C8, amended: binder pairs are not independently fallible: whenever
`next_parameter_pair` fails, the cursor is left unchanged (the error returns
before `position` is advanced), so a further `next()` call repeats exactly
the same error and later valid pairs are unreachable unless the consumer
terminates. -/
theorem c8_error_leaves_cursor :
    ∀ (b : Ps.ParameterBinder) (e : Ps.ParameterBinderError),
      ((Ps.nextParameterPair b).1 = .err e → (Ps.nextParameterPair b).2 = b)
        ∧ ((Ps.next b).1 = some (.err e) → Ps.next ((Ps.next b).2) = Ps.next b) := by
  intro b e
  have key : (Ps.nextParameterPair b).1 = .err e → (Ps.nextParameterPair b).2 = b := by
    intro h
    cases h0 : Ps.peek b 0 with
    | none => simp [Ps.nextParameterPair, h0]
    | some cur =>
      by_cases hc : Ps.isParameterName cur
      · cases h1 : Ps.peek b 1 with
        | none => simp [Ps.nextParameterPair, h0, hc, h1] at h
        | some nxt =>
          by_cases hn : Ps.isParameterName nxt
          · simp [Ps.nextParameterPair, h0, hc, h1, hn] at h
          · cases hf : Ps.fromStr nxt with
            | ok v => simp [Ps.nextParameterPair, h0, hc, h1, hn, hf] at h
            | err e2 => simp [Ps.nextParameterPair, h0, hc, h1, hn, hf]
            | panic => simp [Ps.nextParameterPair, h0, hc, h1, hn, hf] at h
      · simp [Ps.nextParameterPair, h0, hc]
  refine ⟨key, ?_⟩
  intro h
  by_cases hn : Ps.hasNext b
  · have h1 : (Ps.next b).1 = .some (Ps.nextParameterPair b).1 := by
      simp [Ps.next, hn]
    have h2 : (Ps.next b).2 = (Ps.nextParameterPair b).2 := by
      simp [Ps.next, hn]
    rw [h1] at h
    have := key (Option.some.inj h)
    rw [h2, this]
  · simp [Ps.next, hn] at h

theorem c8_error_leaves_cursor_witness :
    (Ps.nextParameterPair { input_args := ["foo"], position := 0 }).2
      = { input_args := ["foo"], position := 0 } :=
  (c8_error_leaves_cursor { input_args := ["foo"], position := 0 }
    { failed_arg := some "foo", reason := .ParameterBinder }).1 rfl

/-- C6: a token stream of exactly one scalar token and a following comma
parses, via `sequence_by_comma_op`, to the one-element array holding that
scalar (the trailing `sequence` after the mandatory comma being absent), and
`parse_argument` returns exactly that result. -/
theorem c6_scalar_comma_singleton :
    ∀ (t : Ps.Token) (v : Ps.CliArgument), skalarValue t = some v →
      Ps.parseSequenceByCommaOp 3 [t, .Comma] = .ok (.Array [v], [])
        ∧ Ps.parseArgument [t, .Comma] = .ok (.Array [v], []) := by
  intro t v h
  cases t with
  | String s =>
    simp only [skalarValue, Option.some.injEq] at h
    subst h
    exact ⟨rfl, rfl⟩
  | Number s =>
    cases hp : Ps.Number.parse s with
    | none => simp [skalarValue, hp] at h
    | some n =>
      simp only [skalarValue, hp, Option.map_some', Option.some.injEq] at h
      subst h
      have h1 : Ps.parseSequenceByCommaOp 3 [Ps.Token.Number s, .Comma]
          = .ok (.Array [.Number n], []) := by
        simp [Ps.parseSequenceByCommaOp, Ps.parseCommaOp, Ps.parseElement, Ps.parseElementWith,
          Ps.parseSkalar, hp, Ps.parseNewtypeToken, Ps.parseSequence, Ps.parseSequenceWith,
          Ps.parseSequenceRestWith, Ps.parseArray]
      refine ⟨h1, ?_⟩
      simp [Ps.parseArgument, h1]
  | Bool b =>
    simp only [skalarValue, Option.some.injEq] at h
    subst h
    exact ⟨rfl, rfl⟩
  | Comma => simp [skalarValue] at h
  | ArrayBegin => simp [skalarValue] at h
  | ArrayEnd => simp [skalarValue] at h
  | ArrayOpBegin => simp [skalarValue] at h
  | ArrayOpEnd => simp [skalarValue] at h

theorem c6_scalar_comma_singleton_witness :
    Ps.lex "foo," = .ok [.String "foo", .Comma]
      ∧ Ps.parseArgument [.String "foo", .Comma] = .ok (.Array [.String "foo"], []) :=
  ⟨rfl, (c6_scalar_comma_singleton (.String "foo") (.String "foo") rfl).2⟩


/-- The Control-state character dispatch never produces a lexer error. -/
theorem scanControlChar_no_err (lx : Ps.LexerSt) (c : Char) (rest : List Char) (e : Ps.Error) :
    Ps.scanControlChar lx c rest ≠ .err e := by
  intro h
  rw [Ps.scanControlChar] at h
  repeat' split at h
  all_goals exact RRes.noConfusion h

/-- The Control-state character dispatch never panics. -/
theorem scanControlChar_no_panic (lx : Ps.LexerSt) (c : Char) (rest : List Char) :
    Ps.scanControlChar lx c rest ≠ .panic := by
  intro h
  rw [Ps.scanControlChar] at h
  repeat' split at h
  all_goals exact RRes.noConfusion h

/-- The Control-state character dispatch returns exactly the rest it was
given. -/
theorem scanControlChar_rest (lx lx' : Ps.LexerSt) (c : Char) (rest rest' : List Char) :
    Ps.scanControlChar lx c rest = .ok (lx', rest') → rest' = rest := by
  intro h
  rw [Ps.scanControlChar] at h
  repeat' split at h
  all_goals
    injection h with h1
  all_goals
    injection h1 with h2 h3
  all_goals
    exact h3.symm

/-- No scan handler returns `Err` on nonempty input: the error branches sit
only behind the empty-input check. -/
theorem scan_no_err (lx : Ps.LexerSt) (c : Char) (cs : List Char) (e : Ps.Error) :
    Ps.scan lx (c :: cs) ≠ .err e := by
  intro h
  obtain ⟨toks, st, esc, buf⟩ := lx
  cases st <;> simp only [Ps.scan] at h
  case Control =>
    rw [Ps.scanControl] at h
    split at h
    · exact RRes.noConfusion h
    · split at h
      · exact RRes.noConfusion h
      · exact scanControlChar_no_err _ _ _ _ h
  case SingleQuote =>
    rw [Ps.scanSinglequote] at h
    repeat' split at h
    all_goals exact RRes.noConfusion h
  case DoubleQuote =>
    rw [Ps.scanDoublequote] at h
    repeat' split at h
    all_goals exact RRes.noConfusion h
  case MaybeArrayOp =>
    rw [Ps.scanMaybearrayop] at h
    repeat' split at h
    all_goals exact RRes.noConfusion h
  case ParanthesesCmd =>
    rw [Ps.scanParanthesesCmd] at h
    repeat' split at h
    all_goals exact RRes.noConfusion h

/-- Every successful scan step consumes exactly the head character. -/
theorem scan_rest (lx lx' : Ps.LexerSt) (c : Char) (cs rest : List Char) :
    Ps.scan lx (c :: cs) = .ok (lx', rest) → rest = cs := by
  intro h
  obtain ⟨toks, st, esc, buf⟩ := lx
  cases st <;> simp only [Ps.scan] at h
  case Control =>
    rw [Ps.scanControl] at h
    split at h
    · exact RRes.noConfusion h
    · split at h
      · injection h with h1
        injection h1 with h2 h3
        exact h3.symm
      · exact scanControlChar_rest _ _ _ _ _ h
  all_goals
    first
      | rw [Ps.scanSinglequote] at h
      | rw [Ps.scanDoublequote] at h
      | rw [Ps.scanMaybearrayop] at h
      | rw [Ps.scanParanthesesCmd] at h
  all_goals repeat' split at h
  all_goals
    first
      | exact RRes.noConfusion h
      | (injection h with h1
         injection h1 with h2 h3
         exact h3.symm)

/-- On a single-byte head character no scan handler panics: the only panic is
the byte slice off a char boundary. -/
theorem scan_no_panic_of_ascii (lx : Ps.LexerSt) (c : Char) (cs : List Char)
    (hc : c.utf8Size = 1) : Ps.scan lx (c :: cs) ≠ .panic := by
  intro h
  obtain ⟨toks, st, esc, buf⟩ := lx
  cases st <;> simp only [Ps.scan] at h
  case Control =>
    rw [Ps.scanControl] at h
    split at h
    · rename_i hcond
      exact hcond (by rw [hc])
    · split at h
      · exact RRes.noConfusion h
      · exact scanControlChar_no_panic _ _ _ h
  all_goals
    first
      | rw [Ps.scanSinglequote] at h
      | rw [Ps.scanDoublequote] at h
      | rw [Ps.scanMaybearrayop] at h
      | rw [Ps.scanParanthesesCmd] at h
  all_goals repeat' split at h
  all_goals
    first
      | exact RRes.noConfusion h
      | (rename_i hcond; exact hcond (by rw [hc]))

/-- On a single-byte head character every scan handler succeeds and consumes
exactly that character. -/
theorem scan_ok_of_ascii (lx : Ps.LexerSt) (c : Char) (cs : List Char)
    (hc : c.utf8Size = 1) : ∃ lx', Ps.scan lx (c :: cs) = .ok (lx', cs) := by
  cases hr : Ps.scan lx (c :: cs) with
  | ok p =>
    obtain ⟨lx1, rest⟩ := p
    have hrest := scan_rest lx lx1 c cs rest hr
    subst hrest
    exact ⟨lx1, rfl⟩
  | err e => exact absurd hr (scan_no_err lx c cs e)
  | panic => exact absurd hr (scan_no_panic_of_ascii lx c cs hc)

/-- The lexer loop never produces `Err`: the only `Err` sources are the
handlers on empty input, and the loop runs handlers only on nonempty input. -/
theorem lexLoop_no_err : ∀ (input : List Char) (lx : Ps.LexerSt) (e : Ps.Error),
    Ps.lexLoop lx input ≠ .err e := by
  intro input
  induction input with
  | nil => intro lx e h; exact RRes.noConfusion h
  | cons c cs ih =>
    intro lx e h
    cases hr : Ps.scan lx (c :: cs) with
    | ok p =>
      obtain ⟨lx1, rest⟩ := p
      simp only [Ps.lexLoop, hr] at h
      exact ih lx1 e h
    | err e2 => exact scan_no_err lx c cs e2 hr
    | panic =>
      simp only [Ps.lexLoop, hr] at h
      exact RRes.noConfusion h

/-- On input all of whose characters are single-byte, the lexer loop runs to
completion. -/
theorem lexLoop_ok_of_ascii : ∀ (input : List Char) (lx : Ps.LexerSt),
    (∀ c ∈ input, c.utf8Size = 1) → ∃ lx', Ps.lexLoop lx input = .ok lx' := by
  intro input
  induction input with
  | nil => intro lx _; exact ⟨lx, rfl⟩
  | cons c cs ih =>
    intro lx h
    obtain ⟨lx1, hs⟩ := scan_ok_of_ascii lx c cs (h c (List.mem_cons_self c cs))
    obtain ⟨lx', hl⟩ := ih lx1 (fun d hd => h d (List.mem_cons_of_mem c hd))
    exact ⟨lx', by simp only [Ps.lexLoop, hs]; exact hl⟩

/-- Appending a token which is not a `Number` token with a rejected lexeme
preserves the lexer invariant. -/
theorem numTokensOk_append (ts : List Ps.Token) (t : Ps.Token)
    (h : NumTokensOk ts) (ht : ∀ s, t = Ps.Token.Number s → Ps.parseF64Accepts s = true) :
    NumTokensOk (ts ++ [t]) := by
  intro s hs
  rcases List.mem_append.1 hs with h1 | h1
  · exact h s h1
  · exact ht s (List.mem_singleton.1 h1).symm

/-- `store_buf_as_token` preserves the lexer invariant: it pushes a `Number`
token only when `is_number` (f64-parsability) holds of the accumulator. -/
theorem numTokensOk_storeBuf (lx : Ps.LexerSt) (h : NumTokensOk lx.tokens) :
    NumTokensOk (Ps.storeBufAsToken lx).tokens := by
  unfold Ps.storeBufAsToken
  split_ifs with h1 h2
  · exact h
  · exact numTokensOk_append _ _ h (fun s hs => by
      injection hs with hb
      rw [← hb]
      exact h2)
  · split
    · exact numTokensOk_append _ _ h (fun s hs => nomatch hs)
    · exact numTokensOk_append _ _ h (fun s hs => nomatch hs)

/-- The Control-state character dispatch preserves the lexer invariant. -/
theorem numTokensOk_scanControlChar (lx lx' : Ps.LexerSt) (c : Char) (rest rest' : List Char)
    (hs : Ps.scanControlChar lx c rest = .ok (lx', rest'))
    (h : NumTokensOk lx.tokens) : NumTokensOk lx'.tokens := by
  rw [Ps.scanControlChar] at hs
  repeat' split at hs
  all_goals
    injection hs with h1
  all_goals
    injection h1 with h2 h3
  all_goals
    subst h2
  all_goals
    first
      | exact h
      | exact numTokensOk_storeBuf _ h
      | exact numTokensOk_append _ _ h (fun s hs' => nomatch hs')
      | exact numTokensOk_append _ _ (numTokensOk_storeBuf _ h) (fun s hs' => nomatch hs')

/-- One scan step preserves the lexer invariant: new tokens are either
structural (never `Number`) or flushed through `store_buf_as_token`. -/
theorem numTokensOk_scan (lx lx' : Ps.LexerSt) (input rest : List Char)
    (hs : Ps.scan lx input = .ok (lx', rest))
    (h : NumTokensOk lx.tokens) : NumTokensOk lx'.tokens := by
  obtain ⟨toks, st, esc, buf⟩ := lx
  cases input with
  | nil =>
    cases st <;> simp only [Ps.scan] at hs
    case Control =>
      rw [Ps.scanControl] at hs
      injection hs with h1
      injection h1 with h2 h3
      subst h2
      exact h
    all_goals
      first
        | rw [Ps.scanSinglequote] at hs
        | rw [Ps.scanDoublequote] at hs
        | rw [Ps.scanMaybearrayop] at hs
        | rw [Ps.scanParanthesesCmd] at hs
    all_goals exact RRes.noConfusion hs
  | cons c cs =>
    cases st <;> simp only [Ps.scan] at hs
    case Control =>
      rw [Ps.scanControl] at hs
      split at hs
      · exact RRes.noConfusion hs
      · split at hs
        · injection hs with h1
          injection h1 with h2 h3
          subst h2
          exact h
        · exact numTokensOk_scanControlChar _ _ _ _ _ hs h
    all_goals
      first
        | rw [Ps.scanSinglequote] at hs
        | rw [Ps.scanDoublequote] at hs
        | rw [Ps.scanMaybearrayop] at hs
        | rw [Ps.scanParanthesesCmd] at hs
    all_goals repeat' split at hs
    all_goals
      first
        | exact RRes.noConfusion hs
        | (injection hs with h1
           injection h1 with h2 h3
           subst h2
           first
             | exact h
             | exact numTokensOk_storeBuf _ h
             | exact numTokensOk_append _ _ h (fun s hs' => nomatch hs'))

/-- The whole lexer loop preserves the lexer invariant. -/
theorem numTokensOk_lexLoop : ∀ (input : List Char) (lx lx' : Ps.LexerSt),
    Ps.lexLoop lx input = .ok lx' → NumTokensOk lx.tokens → NumTokensOk lx'.tokens := by
  intro input
  induction input with
  | nil =>
    intro lx lx' hl h
    injection hl with h1
    rw [← h1]
    exact h
  | cons c cs ih =>
    intro lx lx' hl h
    cases hsc : Ps.scan lx (c :: cs) with
    | ok p =>
      obtain ⟨lx1, rest⟩ := p
      simp only [Ps.lexLoop, hsc] at hl
      exact ih lx1 lx' hl (numTokensOk_scan lx lx1 (c :: cs) rest hsc h)
    | err e => simp only [Ps.lexLoop, hsc] at hl; exact RRes.noConfusion hl
    | panic => simp only [Ps.lexLoop, hsc] at hl; exact RRes.noConfusion hl

/-- Every token stream the lexer returns satisfies the invariant: each
`Number` token's lexeme passed the `is_number` check. -/
theorem numTokensOk_lex : ∀ (input : String) (ts : List Ps.Token),
    Ps.lex input = .ok ts → NumTokensOk ts := by
  intro input ts hl
  unfold Ps.lex at hl
  cases hres : Ps.lexLoop Ps.initLexer input.data with
  | ok lx =>
    rw [hres] at hl
    injection hl with h1
    have h0 : NumTokensOk Ps.initLexer.tokens := fun s hs => absurd hs (List.not_mem_nil _)
    have h1' := numTokensOk_storeBuf lx (numTokensOk_lexLoop _ _ _ hres h0)
    rw [← h1]
    exact h1'
  | err e => rw [hres] at hl; exact RRes.noConfusion hl
  | panic => rw [hres] at hl; exact RRes.noConfusion hl

/-- A lexeme accepted by the f64 grammar is never rejected by the numeric
classifier: the classifier's final stage is exactly the f64 parse. -/
theorem parse_some_of_f64 : ∀ s, Ps.parseF64Accepts s = true → Ps.Number.parse s ≠ none := by
  intro s h
  cases hd : s.data.head? with
  | none => simp [Ps.Number.parse, hd, h]
  | some c =>
    by_cases hc : c = '-'
    · subst hc
      cases hI : Ps.parseI64 s <;> simp [Ps.Number.parse, hd, hI, h]
    · cases hU : Ps.parseU64 s <;> simp [Ps.Number.parse, hd, hU, hc, h]

/-- Well-formedness of a token list is inherited by any membership-wise
sub-list. -/
theorem noBadNum_subset {us ts : List Ps.Token} (hsub : us ⊆ ts) (h : NoBadNum ts) :
    NoBadNum us :=
  fun s hs => h s (hsub hs)

/-- `parse_newtype_token` never panics and, on success, hands back a suffix
of its input. -/
theorem parserFnOk_parseNewtypeToken (tok : Ps.Token) :
    ParserFnOk (Ps.parseNewtypeToken tok) := by
  intro ts hnb
  constructor
  · intro h
    cases ts with
    | nil => exact RRes.noConfusion h
    | cons t rest =>
      rw [Ps.parseNewtypeToken] at h
      split at h <;> exact RRes.noConfusion h
  · intro v r h
    cases ts with
    | nil => exact RRes.noConfusion h
    | cons t rest =>
      rw [Ps.parseNewtypeToken] at h
      split at h
      · injection h with h1
        injection h1 with h2 h3
        subst h3
        intro x hx
        exact List.mem_cons_of_mem t hx
      · exact RRes.noConfusion h

/-- `parse_skalar` never panics on a well-formed token list (the `unwrap`
fires only on a `Number` token the classifier rejects) and, on success,
consumes exactly one token. -/
theorem parserFnOk_parseSkalar : ParserFnOk Ps.parseSkalar := by
  intro ts hnb
  constructor
  · intro h
    cases ts with
    | nil => exact RRes.noConfusion h
    | cons t rest =>
      cases t with
      | String s => exact RRes.noConfusion h
      | Number s =>
        simp only [Ps.parseSkalar] at h
        cases hp : Ps.Number.parse s with
        | none => exact hnb s (List.Mem.head _) hp
        | some n => rw [hp] at h; exact RRes.noConfusion h
      | Bool b => exact RRes.noConfusion h
      | Comma => exact RRes.noConfusion h
      | ArrayBegin => exact RRes.noConfusion h
      | ArrayEnd => exact RRes.noConfusion h
      | ArrayOpBegin => exact RRes.noConfusion h
      | ArrayOpEnd => exact RRes.noConfusion h
  · intro v r h
    cases ts with
    | nil => exact RRes.noConfusion h
    | cons t rest =>
      have hsub : rest ⊆ t :: rest := fun x hx => List.mem_cons_of_mem t hx
      cases t with
      | String s =>
        injection h with h1
        injection h1 with h2 h3
        subst h3
        exact hsub
      | Number s =>
        simp only [Ps.parseSkalar] at h
        cases hp : Ps.Number.parse s with
        | none => rw [hp] at h; exact RRes.noConfusion h
        | some n =>
          rw [hp] at h
          injection h with h1
          injection h1 with h2 h3
          subst h3
          exact hsub
      | Bool b =>
        injection h with h1
        injection h1 with h2 h3
        subst h3
        exact hsub
      | Comma => exact RRes.noConfusion h
      | ArrayBegin => exact RRes.noConfusion h
      | ArrayEnd => exact RRes.noConfusion h
      | ArrayOpBegin => exact RRes.noConfusion h
      | ArrayOpEnd => exact RRes.noConfusion h

/-- `parse_element` inherits panic-freedom and input discipline from the
scalar production and the array production it is given. -/
theorem parserFnOk_parseElementWith
    (arrayFn : List Ps.Token → RRes Ps.Error (Ps.CliArgument × List Ps.Token))
    (ha : ParserFnOk arrayFn) : ParserFnOk (Ps.parseElementWith arrayFn) := by
  intro ts hnb
  have hsk := parserFnOk_parseSkalar ts hnb
  have haf := ha ts hnb
  constructor
  · intro h
    rw [Ps.parseElementWith] at h
    split at h
    · exact RRes.noConfusion h
    · rename_i heq
      exact hsk.1 heq
    · split at h
      · exact RRes.noConfusion h
      · exact RRes.noConfusion h
      · rename_i heq2
        exact haf.1 heq2
  · intro v r h
    rw [Ps.parseElementWith] at h
    split at h
    · rename_i p heq
      injection h with h1
      rw [h1] at heq
      exact hsk.2 v r heq
    · exact RRes.noConfusion h
    · split at h
      · rename_i p heq2
        injection h with h1
        rw [h1] at heq2
        exact haf.2 v r heq2
      · exact RRes.noConfusion h
      · exact RRes.noConfusion h

/-- The sequence loop inherits panic-freedom and input discipline from its
element production, for every fuel level and accumulator. -/
theorem parserFnOk_parseSequenceRestWith
    (elementFn : List Ps.Token → RRes Ps.Error (Ps.CliArgument × List Ps.Token))
    (he : ParserFnOk elementFn) :
    ∀ (fuel : Nat) (acc : List Ps.CliArgument),
      ParserFnOk (Ps.parseSequenceRestWith elementFn fuel acc) := by
  intro fuel
  induction fuel using Nat.strong_induction_on with
  | _ fuel ih =>
    intro acc ts hnb
    constructor
    · intro h
      rw [Ps.parseSequenceRestWith] at h
      split at h
      · rename_i tk r1 heq1
        have hr1 : r1 ⊆ ts := (parserFnOk_parseNewtypeToken .Comma ts hnb).2 _ _ heq1
        have hnb1 := noBadNum_subset hr1 hnb
        split at h
        · rename_i el r2 heq2
          have hr2 : r2 ⊆ r1 := (he r1 hnb1).2 _ _ heq2
          split at h
          · exact RRes.noConfusion h
          · rename_i hfuel f
            exact (ih f (by omega) (acc ++ [el]) r2 (noBadNum_subset hr2 hnb1)).1 h
        · exact RRes.noConfusion h
        · rename_i heq2
          exact (he r1 hnb1).1 heq2
      · exact RRes.noConfusion h
    · intro v r h
      rw [Ps.parseSequenceRestWith] at h
      split at h
      · rename_i tk r1 heq1
        have hr1 : r1 ⊆ ts := (parserFnOk_parseNewtypeToken .Comma ts hnb).2 _ _ heq1
        have hnb1 := noBadNum_subset hr1 hnb
        split at h
        · rename_i el r2 heq2
          have hr2 : r2 ⊆ r1 := (he r1 hnb1).2 _ _ heq2
          split at h
          · exact RRes.noConfusion h
          · rename_i hfuel f
            have hrec := (ih f (by omega) (acc ++ [el]) r2 (noBadNum_subset hr2 hnb1)).2 v r h
            exact (hrec.trans hr2).trans hr1
        · injection h with h1
          injection h1 with h2 h3
          subst h3
          exact hr1
        · exact RRes.noConfusion h
      · injection h with h1
        injection h1 with h2 h3
        subst h3
        exact fun x hx => hx

/-- `parse_sequence` inherits panic-freedom and input discipline from its
element production. -/
theorem parserFnOk_parseSequenceWith
    (elementFn : List Ps.Token → RRes Ps.Error (Ps.CliArgument × List Ps.Token))
    (he : ParserFnOk elementFn) (fuel : Nat) :
    ParserFnOk (Ps.parseSequenceWith elementFn fuel) := by
  intro ts hnb
  have helem := he ts hnb
  constructor
  · intro h
    rw [Ps.parseSequenceWith] at h
    split at h
    · rename_i el r1 heq
      have hr1 : r1 ⊆ ts := helem.2 _ _ heq
      exact (parserFnOk_parseSequenceRestWith elementFn he fuel [el] r1
        (noBadNum_subset hr1 hnb)).1 h
    · exact RRes.noConfusion h
    · rename_i heq
      exact helem.1 heq
  · intro v r h
    rw [Ps.parseSequenceWith] at h
    split at h
    · rename_i el r1 heq
      have hr1 : r1 ⊆ ts := helem.2 _ _ heq
      have hrec := (parserFnOk_parseSequenceRestWith elementFn he fuel [el] r1
        (noBadNum_subset hr1 hnb)).2 v r h
      exact hrec.trans hr1
    · exact RRes.noConfusion h
    · exact RRes.noConfusion h

/-- `parse_array` never panics on a well-formed token list and, on success,
hands back part of its input, at every fuel level. -/
theorem parserFnOk_parseArray : ∀ fuel, ParserFnOk (Ps.parseArray fuel) := by
  intro fuel
  induction fuel with
  | zero =>
    intro ts hnb
    constructor
    · intro h
      exact RRes.noConfusion h
    · intro v r h
      exact RRes.noConfusion h
  | succ f ih =>
    intro ts hnb
    have hseq : ParserFnOk (Ps.parseSequenceWith (Ps.parseElementWith (Ps.parseArray f)) f) :=
      parserFnOk_parseSequenceWith _ (parserFnOk_parseElementWith _ ih) f
    have hnt1 := parserFnOk_parseNewtypeToken Ps.Token.ArrayBegin ts hnb
    have hnt2 := parserFnOk_parseNewtypeToken Ps.Token.ArrayOpBegin ts hnb
    constructor
    · intro h
      rw [Ps.parseArray] at h
      split at h
      · rename_i tk r1 heq1
        have hr1 : r1 ⊆ ts := hnt1.2 _ _ heq1
        split at h
        · split at h <;> exact RRes.noConfusion h
        · split at h <;> exact RRes.noConfusion h
        · rename_i heq2
          exact (hseq r1 (noBadNum_subset hr1 hnb)).1 heq2
      · split at h
        · rename_i tk r1 heq1
          have hr1 : r1 ⊆ ts := hnt2.2 _ _ heq1
          split at h
          · split at h <;> exact RRes.noConfusion h
          · split at h <;> exact RRes.noConfusion h
          · rename_i heq2
            exact (hseq r1 (noBadNum_subset hr1 hnb)).1 heq2
        · exact RRes.noConfusion h
    · intro v r h
      rw [Ps.parseArray] at h
      split at h
      · rename_i tk r1 heq1
        have hr1 : r1 ⊆ ts := hnt1.2 _ _ heq1
        have hnb1 := noBadNum_subset hr1 hnb
        split at h
        · rename_i seq r2 heq2
          have hr2 : r2 ⊆ r1 := (hseq r1 hnb1).2 _ _ heq2
          split at h
          · rename_i tk3 r3 heq3
            injection h with h1
            injection h1 with h2 h3
            subst h3
            have hr3 : r3 ⊆ r2 :=
              (parserFnOk_parseNewtypeToken Ps.Token.ArrayEnd r2
                (noBadNum_subset hr2 hnb1)).2 _ _ heq3
            exact ((hr3.trans hr2).trans hr1)
          · exact RRes.noConfusion h
        · rename_i heq2
          split at h
          · rename_i tk3 r3 heq3
            injection h with h1
            injection h1 with h2 h3
            subst h3
            have hr3 : r3 ⊆ r1 :=
              (parserFnOk_parseNewtypeToken Ps.Token.ArrayEnd r1 hnb1).2 _ _ heq3
            exact hr3.trans hr1
          · exact RRes.noConfusion h
        · exact RRes.noConfusion h
      · split at h
        · rename_i tk r1 heq1
          have hr1 : r1 ⊆ ts := hnt2.2 _ _ heq1
          have hnb1 := noBadNum_subset hr1 hnb
          split at h
          · rename_i seq r2 heq2
            have hr2 : r2 ⊆ r1 := (hseq r1 hnb1).2 _ _ heq2
            split at h
            · rename_i tk3 r3 heq3
              injection h with h1
              injection h1 with h2 h3
              subst h3
              have hr3 : r3 ⊆ r2 :=
                (parserFnOk_parseNewtypeToken Ps.Token.ArrayOpEnd r2
                  (noBadNum_subset hr2 hnb1)).2 _ _ heq3
              exact ((hr3.trans hr2).trans hr1)
            · exact RRes.noConfusion h
          · rename_i heq2
            split at h
            · rename_i tk3 r3 heq3
              injection h with h1
              injection h1 with h2 h3
              subst h3
              have hr3 : r3 ⊆ r1 :=
                (parserFnOk_parseNewtypeToken Ps.Token.ArrayOpEnd r1 hnb1).2 _ _ heq3
              exact hr3.trans hr1
            · exact RRes.noConfusion h
          · exact RRes.noConfusion h
        · exact RRes.noConfusion h

/-- `parse_element` at a fuel level is panic-free with input discipline. -/
theorem parserFnOk_parseElement (fuel : Nat) : ParserFnOk (Ps.parseElement fuel) :=
  parserFnOk_parseElementWith _ (parserFnOk_parseArray fuel)

/-- `parse_sequence` at a fuel level is panic-free with input discipline. -/
theorem parserFnOk_parseSequence (fuel : Nat) : ParserFnOk (Ps.parseSequence fuel) :=
  parserFnOk_parseSequenceWith _ (parserFnOk_parseElement fuel) fuel

/-- `parse_comma_op` is panic-free with input discipline. -/
theorem parserFnOk_parseCommaOp (fuel : Nat) : ParserFnOk (Ps.parseCommaOp fuel) := by
  intro ts hnb
  have hel := parserFnOk_parseElement fuel ts hnb
  constructor
  · intro h
    rw [Ps.parseCommaOp] at h
    split at h
    · split at h <;> exact RRes.noConfusion h
    · exact RRes.noConfusion h
    · rename_i heq
      exact hel.1 heq
  · intro v r h
    rw [Ps.parseCommaOp] at h
    split at h
    · rename_i el r1 heq
      have hr1 : r1 ⊆ ts := hel.2 _ _ heq
      split at h
      · rename_i tk r2 heq2
        injection h with h1
        injection h1 with h2 h3
        subst h3
        have hr2 : r2 ⊆ r1 :=
          (parserFnOk_parseNewtypeToken Ps.Token.Comma r1
            (noBadNum_subset hr1 hnb)).2 _ _ heq2
        exact hr2.trans hr1
      · exact RRes.noConfusion h
    · exact RRes.noConfusion h
    · exact RRes.noConfusion h

/-- `parse_sequence_by_comma_op` is panic-free with input discipline. -/
theorem parserFnOk_parseSequenceByCommaOp (fuel : Nat) :
    ParserFnOk (Ps.parseSequenceByCommaOp fuel) := by
  intro ts hnb
  have hco := parserFnOk_parseCommaOp fuel ts hnb
  constructor
  · intro h
    rw [Ps.parseSequenceByCommaOp] at h
    split at h
    · rename_i seq1 r1 heq1
      have hr1 : r1 ⊆ ts := hco.2 _ _ heq1
      split at h
      · exact RRes.noConfusion h
      · exact RRes.noConfusion h
      · rename_i heq2
        exact (parserFnOk_parseSequence fuel r1 (noBadNum_subset hr1 hnb)).1 heq2
    · exact RRes.noConfusion h
    · rename_i heq1
      exact hco.1 heq1
  · intro v r h
    rw [Ps.parseSequenceByCommaOp] at h
    split at h
    · rename_i seq1 r1 heq1
      have hr1 : r1 ⊆ ts := hco.2 _ _ heq1
      split at h
      · rename_i seq2 r2 heq2
        injection h with h1
        injection h1 with h2 h3
        subst h3
        have hr2 : r2 ⊆ r1 :=
          (parserFnOk_parseSequence fuel r1 (noBadNum_subset hr1 hnb)).2 _ _ heq2
        exact hr2.trans hr1
      · injection h with h1
        injection h1 with h2 h3
        subst h3
        exact hr1
      · exact RRes.noConfusion h
    · exact RRes.noConfusion h
    · exact RRes.noConfusion h

/-- `parse_argument` never panics on a well-formed token list: every `unwrap`
inside `parse_skalar` is reached only with classifier-accepted lexemes. -/
theorem parseArgument_no_panic (ts : List Ps.Token) (hnb : NoBadNum ts) :
    Ps.parseArgument ts ≠ .panic := by
  intro h
  rw [Ps.parseArgument] at h
  split at h
  · exact RRes.noConfusion h
  · rename_i heq
    exact (parserFnOk_parseSequenceByCommaOp (ts.length + 1) ts hnb).1 heq
  · split at h
    · exact RRes.noConfusion h
    · rename_i heq
      exact (parserFnOk_parseArray (ts.length + 1) ts hnb).1 heq
    · split at h
      · exact RRes.noConfusion h
      · rename_i heq
        exact (parserFnOk_parseSkalar ts hnb).1 heq
      · exact RRes.noConfusion h

/-- C7: every `Number(lexeme)` token in a token stream the lexer returns
satisfies `Number::parse(lexeme) = Some(_)` — the lexer's `is_number`
predicate (f64-parsability) guarantees the classifier succeeds — and
consequently running the parser on lexer output never reaches the panicking
`unwrap` in `parse_skalar`. -/
theorem c7_number_tokens_always_parse :
    ∀ (input : String) (tokens : List Ps.Token), Ps.lex input = .ok tokens →
      (∀ s, Ps.Token.Number s ∈ tokens → Ps.Number.parse s ≠ none)
        ∧ Ps.parseArgument tokens ≠ .panic := by
  intro input tokens hl
  have h1 : NumTokensOk tokens := numTokensOk_lex input tokens hl
  have h2 : NoBadNum tokens := fun s hs => parse_some_of_f64 s (h1 s hs)
  exact ⟨h2, parseArgument_no_panic tokens h2⟩

theorem c7_number_tokens_always_parse_witness :
    Ps.Number.parse "12" ≠ none
      ∧ Ps.parseArgument [.Number "12", .Comma, .String "x"] ≠ .panic :=
  have h := c7_number_tokens_always_parse "12,x" [.Number "12", .Comma, .String "x"] rfl
  ⟨h.1 "12" (List.Mem.head _), h.2⟩

/-- C9, amended: `Lexer::lex` never returns `Err` — the per-state handlers'
error branches are reachable only on empty input, which the loop guard
excludes, and an unterminated single quote, double quote, or sub-expression
at end of input flushes the accumulator as a final token. On every input
whose characters are all single-byte, `lex` returns `Ok`; it is however not
total on all strings: a multi-byte character makes the byte-oriented `eat(1)`
panic instead. -/
theorem c9_lex_never_errors :
    (∀ (input : String) (e : Ps.Error), Ps.lex input ≠ .err e)
      ∧ (∀ input : String, (∀ c ∈ input.data, c.utf8Size = 1) →
          ∃ ts, Ps.lex input = .ok ts)
      ∧ Ps.lex "'abc" = .ok [.String "abc"]
      ∧ Ps.lex "\"abc" = .ok [.String "abc"]
      ∧ Ps.lex "(abc" = .ok [.String "(abc"] := by
  refine ⟨?_, ?_, rfl, rfl, rfl⟩
  · intro input e h
    unfold Ps.lex at h
    cases hres : Ps.lexLoop Ps.initLexer input.data with
    | ok lx => rw [hres] at h; exact RRes.noConfusion h
    | err e2 => exact lexLoop_no_err input.data Ps.initLexer e2 hres
    | panic => rw [hres] at h; exact RRes.noConfusion h
  · intro input h
    obtain ⟨lx', hl⟩ := lexLoop_ok_of_ascii input.data Ps.initLexer h
    exact ⟨(Ps.storeBufAsToken lx').tokens, by unfold Ps.lex; rw [hl]⟩

theorem c9_lex_never_errors_witness :
    ∃ ts, Ps.lex "xy z" = .ok ts :=
  c9_lex_never_errors.2.1 "xy z" (by decide)
